import Mathlib

/-!
Verification of the archiveis-rs capture protocol client.

The repository's library (`src/src/lib.rs`) exposes an `ArchiveClient` with
`get_unique_token`, `capture_with_token`, `capture` and `capture_all`; the CLI
(`src/src/archiveis.rs`) adds `capture_links` and the retry loop
`fold_captures`.  This file shallowly embeds the pure response-interpretation
logic of those functions over `List Char` bodies and header values: the HTTP
transport is abstracted into explicit inputs (a `Response` per POST, a token
oracle per GET), and the `chrono` date parser is an explicit parameter.
-/

set_option autoImplicit false

namespace Archiveis

/-! Section: string-scanning primitives

Rust's `str::splitn`, `str::rsplitn`, `str::split` and `str::starts_with`
are modelled on `List Char`.  `findSplit pat s` locates the first (leftmost)
occurrence of `pat` in `s` and returns the text before it together with the
text after it; `findLastSplit` locates the last (rightmost) occurrence, which
is what `rsplitn(2, pat).next()` consumes. -/

/-- Leftmost occurrence of `pat` in `s`: `some (before, after)` with
`s = before ++ pat ++ after`, or `none` when `pat` does not occur. -/
def findSplit (pat : List Char) : List Char → Option (List Char × List Char)
  | [] => if pat.isEmpty then some ([], []) else none
  | c :: cs =>
    if pat.isPrefixOf (c :: cs) then some ([], (c :: cs).drop pat.length)
    else (findSplit pat cs).map (fun p => (c :: p.1, p.2))

/-- Rightmost occurrence of `pat` in `s` (an occurrence inside the tail is
preferred over one starting at the head, so the latest start wins). -/
def findLastSplit (pat : List Char) : List Char → Option (List Char × List Char)
  | [] => if pat.isEmpty then some ([], []) else none
  | c :: cs =>
    match findLastSplit pat cs with
    | some p => some (c :: p.1, p.2)
    | none =>
      if pat.isPrefixOf (c :: cs) then some ([], (c :: cs).drop pat.length)
      else none

/-- Model of `s.splitn(2, pat).nth(1)`: the text after the first occurrence of `pat`. -/
def afterFirst (pat s : List Char) : Option (List Char) :=
  (findSplit pat s).map (fun p => p.2)

/-- Model of `s.rsplitn(2, pat).next()`: the text after the last occurrence of
`pat`, or all of `s` when `pat` does not occur (the first item of `rsplitn`). -/
def afterLastOrAll (pat s : List Char) : List Char :=
  match findLastSplit pat s with
  | some p => p.2
  | none => s

/-- Whether `pat` occurs as a contiguous substring of `s`. -/
def containsPat (pat s : List Char) : Bool :=
  (findSplit pat s).isSome

/-- Model of `s.split(c)`: split on every occurrence of the character `c`. -/
def splitChar (c : Char) : List Char → List (List Char)
  | [] => [[]]
  | a :: rest =>
    if a = c then [] :: splitChar c rest
    else
      match splitChar c rest with
      | [] => [[a]]
      | h :: t => (a :: h) :: t

/-- Model of `s.splitn(2, '"').next()`: the prefix of `s` before the first `"`. -/
def beforeQuote (s : List Char) : List Char :=
  s.takeWhile (fun c => c ≠ '"')

/-! Section: markers scraped from HTML (string literals of the source) -/

/-- Literal `"name=\"submitid"`, the marker `get_unique_token` splits on. -/
def submitidMarker : List Char := "name=\"submitid".data

/-- Literal `"value=\""`, the attribute opener both extractions split on. -/
def valueMarker : List Char := "value=\"".data

/-- Literal `"<h1>Server Error</h1>"`, the body prefix `capture_with_token` tests. -/
def serverErrorMarker : List Char := "<h1>Server Error</h1>".data

/-- Literal `"<meta property=\"og:url\""`, the fallback meta-tag marker. -/
def ogUrlMarker : List Char := "<meta property=\"og:url\"".data

/-- Literal `"content=\""`, the attribute opener of the meta-tag fallback. -/
def contentMarker : List Char := "content=\"".data

/-! Section: error and result types

`src/src/lib.rs:85-94` declares `Error` with variants `Hyper`, `MissingToken`
and `MissingUrl(String)`.  The CLI `src/src/archiveis.rs:199-201,273-274`
additionally matches `Error::ServerError(url)`, and the spec lists it as an
error kind, so the embedding carries all four variants; the library code
below never constructs `serverError`, which is part of what is proved. -/

inductive Error where
  /-- Variant `Error::Hyper`: a transport-layer failure (payload abstracted away). -/
  | hyper : Error
  /-- Variant `Error::MissingToken`: no token could be scraped. -/
  | missingToken : Error
  /-- Variant `Error::MissingUrl(url)`: POST ok but no archive url extracted. -/
  | missingUrl : List Char → Error
  /-- Variant `Error::ServerError(url)`: matched by the CLI layer. -/
  | serverError : List Char → Error
  deriving Repr, DecidableEq

/-- Structure `Archived` (`src/src/lib.rs:97-107`); the `chrono` timestamp is
abstracted to a `Nat`. -/
structure Archived where
  target_url : List Char
  archived_url : List Char
  time_stamp : Option Nat
  submit_token : List Char
  deriving Repr, DecidableEq

/-- One POST response as `capture_with_token` observes it: the `Refresh` and
`Date` header values (`none` when the header is absent or not `to_str`-able)
and the body text (`none` when the bytes are not valid UTF-8). -/
structure Response where
  refresh : Option (List Char)
  date : Option (List Char)
  body : Option (List Char)
  deriving Repr, DecidableEq

/-! Section: token extraction (`get_unique_token`, `src/src/lib.rs:281-299`) -/

/-- The split chain of `get_unique_token`:
`html.rsplitn(2, "name=\"submitid").next()`, then `splitn(2, "value=\"").nth(1)`,
then `splitn(2, '"').next()`. -/
def extractToken (html : List Char) : Option (List Char) :=
  (afterFirst valueMarker (afterLastOrAll submitidMarker html)).map beforeQuote

/-- Handling of the landing-page body by `get_unique_token`: a `none` body
models bytes that are not valid UTF-8 (`from_utf8` failed). -/
def get_unique_token (body : Option (List Char)) : Except Error (List Char) :=
  match body with
  | none => .error .missingToken
  | some html =>
    match extractToken html with
    | some token => .ok token
    | none => .error .missingToken

/-! Section: capture response interpretation (`capture_with_token`,
`src/src/lib.rs:177-266`) -/

/-- Extraction from the `Refresh` header (`src/src/lib.rs:203-207`):
`x.split('=').nth(1)` — the segment of the header value strictly between the
first and the second `=` (or everything after the first `=` when no second
`=` occurs); `none` when the value contains no `=` at all. -/
def refreshExtract (v : List Char) : Option (List Char) :=
  (splitChar '=' v).get? 1

/-- The meta-tag fallback chain (`src/src/lib.rs:237-244`):
`html.splitn(2, "<meta property=\"og:url\"").nth(1)`, then
`splitn(2, "content=\"").nth(1)`, then `splitn(2, '"').next()`. -/
def ogExtract (html : List Char) : Option (List Char) :=
  (afterFirst ogUrlMarker html).bind (fun x =>
    (afterFirst contentMarker x).map beforeQuote)

/-- Decidable equality for `Except`, used to evaluate concrete outcomes. -/
instance exceptDecEq {ε α : Type} [DecidableEq ε] [DecidableEq α] :
    DecidableEq (Except ε α)
  | .ok a, .ok b =>
    if h : a = b then .isTrue (by rw [h]) else .isFalse (by simp [h])
  | .error a, .error b =>
    if h : a = b then .isTrue (by rw [h]) else .isFalse (by simp [h])
  | .ok _, .error _ => .isFalse (by simp)
  | .error _, .ok _ => .isFalse (by simp)

/-- What `capture_with_token` does with one POST response: either it settles
with a result (`done`) or — in the server-error branch,
`src/src/lib.rs:232-236` — it re-invokes `self.capture(target_url)`
(`recurse`). -/
inductive CaptureStep where
  | done : Except Error Archived → CaptureStep
  | recurse : CaptureStep
  deriving Repr, DecidableEq

/-- The response-interpretation closure of `capture_with_token`
(`src/src/lib.rs:201-263`).  `pd` abstracts
`chrono::Utc.datetime_from_str(x, "%a, %e %b %Y %T GMT").ok()`. -/
def captureResponseStep (pd : List Char → Option Nat)
    (target_url submit_token : List Char) (resp : Response) : CaptureStep :=
  match resp.refresh.bind refreshExtract with
  | some archived_url =>
    .done (.ok { target_url := target_url, archived_url := archived_url,
                 time_stamp := resp.date.bind pd, submit_token := submit_token })
  | none =>
    match resp.body with
    | some html =>
      if serverErrorMarker.isPrefixOf html then .recurse
      else
        match ogExtract html with
        | some archived_url =>
          .done (.ok { target_url := target_url, archived_url := archived_url,
                       time_stamp := none, submit_token := submit_token })
        | none => .done (.error (.missingUrl target_url))
    | none => .done (.error (.missingUrl target_url))

/-- The recursion of `capture_with_token` made explicit with fuel.  `tokens k`
is the outcome of the `k`-th `get_unique_token` GET and `resps k` the response
to the `k`-th POST.  A `recurse` step is `self.capture(target_url)`
(`src/src/lib.rs:234`, composed with `capture`, `src/src/lib.rs:158-164`):
fetch the next token, then run `capture_with_token` again.  `none` means the
fuel ran out before the recursion settled. -/
def capture_with_token_fuel (pd : List Char → Option Nat)
    (tokens : Nat → Except Error (List Char)) (resps : Nat → Response) :
    Nat → Nat → List Char → List Char → Option (Except Error Archived)
  | 0, _, _, _ => none
  | fuel + 1, k, url, token =>
    match captureResponseStep pd url token (resps k) with
    | .done r => some r
    | .recurse =>
      match tokens (k + 1) with
      | .error e => some (.error e)
      | .ok t => capture_with_token_fuel pd tokens resps fuel (k + 1) url t

/-- Model of `capture` (`src/src/lib.rs:158-164`): fetch a token with
`get_unique_token`, then run `capture_with_token` on the same url. -/
def capture_fuel (pd : List Char → Option Nat)
    (tokens : Nat → Except Error (List Char)) (resps : Nat → Response)
    (fuel : Nat) (url : List Char) : Option (Except Error Archived) :=
  match tokens 0 with
  | .error e => some (.error e)
  | .ok t => capture_with_token_fuel pd tokens resps fuel 0 url t

/-! Section: batch capture (`capture_all`, `src/src/lib.rs:132-149`) -/

/-- Model of `Result::is_ok`. -/
def isOk {ε α : Type} : Except ε α → Bool
  | .ok _ => true
  | .error _ => false

/-- Model of `capture_all`: when a token is supplied it is used directly, otherwise
`getToken` stands for the `get_unique_token` GET; `cap url token` stands for
the joined outcome of `capture_with_token(url, &token).then(Ok)`.  A failure
of the token acquisition fails the whole future (the `.error` case);
otherwise every url is captured and its own outcome collected. -/
def capture_all (getToken : Except Error (List Char))
    (cap : List Char → List Char → Except Error Archived)
    (urls : List (List Char)) (token : Option (List Char)) :
    Except Error (List (Except Error Archived)) :=
  match (match token with | some t => Except.ok t | none => getToken) with
  | .error e => .error e
  | .ok t => .ok (urls.map (fun url => cap url t))

/-! Section: the CLI retry loop (`src/src/archiveis.rs:237-287`) -/

/-- Model of `capture_links` (`src/src/archiveis.rs:238-255`): one
`capture_with_token(url, token.clone())` per link, joined in input order. -/
def capture_links (cap : List Char → List Char → Except Error Archived)
    (links : List (List Char)) (token : List Char) :
    List (Except Error Archived) :=
  links.map (fun url => cap url token)

/-- The `filter_map` arm of `fold_captures`
(`src/src/archiveis.rs:273-276`): only `ServerError(url)` and
`MissingUrl(url)` yield a url to retry; every other entry yields `none`. -/
def retryTarget : Except Error Archived → Option (List Char)
  | .error (.serverError url) => some url
  | .error (.missingUrl url) => some url
  | _ => none

/-- Model of `fold_captures` (`src/src/archiveis.rs:258-287`).  The source returns
`archives` as soon as `archives.iter().all(Result::is_ok) || retries == 0`;
otherwise it partitions into successes and failures, keeps only the
`ServerError`/`MissingUrl` failure urls, re-captures them with the same
`token`, appends the fresh outcomes to the successes and recurses with
`retries - 1`.  The `retries == 0` early return is rendered as the `0` case
of the structural match. -/
def fold_captures (cap : List Char → List Char → Except Error Archived) :
    List (Except Error Archived) → Nat → List Char →
    List (Except Error Archived)
  | archives, 0, _ => archives
  | archives, r + 1, token =>
    if archives.all isOk then archives
    else
      let parts := archives.partition isOk
      let urls := parts.2.filterMap retryTarget
      fold_captures cap (parts.1 ++ capture_links cap urls token) r token

/-- The (url, token) pairs `capture_links` passes to `capture_with_token`. -/
def capture_links_calls (links : List (List Char)) (token : List Char) :
    List (List Char × List Char) :=
  links.map (fun url => (url, token))

/-- Version of `fold_captures` instrumented with the trace of every
`capture_with_token(url, token)` call it makes, in call order; the first
component coincides with `fold_captures` (proved below). -/
def fold_captures_traced (cap : List Char → List Char → Except Error Archived) :
    List (Except Error Archived) → Nat → List Char →
    List (Except Error Archived) × List (List Char × List Char)
  | archives, 0, _ => (archives, [])
  | archives, r + 1, token =>
    if archives.all isOk then (archives, [])
    else
      let parts := archives.partition isOk
      let urls := parts.2.filterMap retryTarget
      let rest :=
        fold_captures_traced cap (parts.1 ++ capture_links cap urls token) r token
      (rest.1, capture_links_calls urls token ++ rest.2)

/-! Section: helper lemmas about the scanning primitives -/

/-- When the pattern does not occur, `findSplit` reports `none`. -/
theorem findSplit_eq_none {pat s : List Char}
    (h : containsPat pat s = false) : findSplit pat s = none := by
  cases hf : findSplit pat s with
  | none => rfl
  | some p =>
    rw [containsPat, hf] at h
    exact absurd h (by simp)

/-- When the leftmost search fails, the rightmost search also fails. -/
theorem findLastSplit_eq_none {pat : List Char} {s : List Char}
    (h : findSplit pat s = none) : findLastSplit pat s = none := by
  induction s with
  | nil => simpa [findLastSplit, findSplit] using h
  | cons c cs ih =>
    simp only [findSplit] at h
    by_cases hp : pat.isPrefixOf (c :: cs)
    · rw [if_pos hp] at h
      exact absurd h (by simp)
    · rw [if_neg hp, Option.map_eq_none'] at h
      simp [findLastSplit, ih h, hp]

/-- Without an occurrence of the pattern, `afterFirst` yields nothing. -/
theorem afterFirst_eq_none {pat s : List Char}
    (h : containsPat pat s = false) : afterFirst pat s = none := by
  rw [afterFirst, findSplit_eq_none h]
  rfl

/-- Without an occurrence of the pattern, `rsplitn(2, pat).next()` is all
of `s`. -/
theorem afterLastOrAll_eq_self {pat s : List Char}
    (h : containsPat pat s = false) : afterLastOrAll pat s = s := by
  rw [afterLastOrAll, findLastSplit_eq_none (findSplit_eq_none h)]

/-- Splitting never produces the empty list of pieces. -/
theorem splitChar_ne_nil (c : Char) (s : List Char) : splitChar c s ≠ [] := by
  induction s with
  | nil => simp [splitChar]
  | cons a rest ih =>
    simp only [splitChar]
    by_cases h : a = c
    · simp [h]
    · rw [if_neg h]
      cases hr : splitChar c rest with
      | nil => simp
      | cons hd tl => simp

/-- The first piece of `s.split(c)` is the prefix of `s` before the first
`c`. -/
theorem splitChar_get_zero (c : Char) (s : List Char) :
    (splitChar c s).get? 0 = some (s.takeWhile (fun x => x ≠ c)) := by
  induction s with
  | nil => simp [splitChar]
  | cons a rest ih =>
    by_cases h : a = c
    · subst h
      simp [splitChar]
    · simp only [splitChar, if_neg h]
      cases hr : splitChar c rest with
      | nil => exact absurd hr (splitChar_ne_nil c rest)
      | cons hd tl =>
        rw [hr] at ih
        injection ih with ih2
        have hp : (fun x => decide (x ≠ c)) a = true := by simp [h]
        simp only [List.get?]
        rw [@List.takeWhile_cons_of_pos Char (fun x => decide (x ≠ c)) a rest hp, ih2]

/-- Splitting a string whose head part is `c`-free peels that part off. -/
theorem splitChar_append {c : Char} {a : List Char}
    (h : a.all (fun x => x ≠ c) = true) (b : List Char) :
    splitChar c (a ++ c :: b) = a :: splitChar c b := by
  induction a with
  | nil => simp [splitChar]
  | cons x xs ih =>
    rw [List.all_cons, Bool.and_eq_true] at h
    have hx : x ≠ c := by simpa using h.1
    have ihx := ih h.2
    simp only [List.cons_append, splitChar, if_neg hx, List.append_eq, ihx]

/-- Evaluation of the `Refresh` extraction on a value of shape
`a ++ "=" ++ b` with no `=` in `a`: the result is `b` truncated at the next
`=`. -/
theorem refreshExtract_append {a : List Char}
    (h : a.all (fun x => x ≠ '=') = true) (b : List Char) :
    refreshExtract (a ++ '=' :: b) =
      some (b.takeWhile (fun x => x ≠ '=')) := by
  rw [refreshExtract, splitChar_append h]
  simpa using splitChar_get_zero '=' b

/-! Section: helper lemmas about the capture step and the retry loop -/

/-- On a response with no usable `Refresh` value and a body starting with the
server-error marker, the source re-invokes `self.capture`. -/
theorem captureResponseStep_recurse {pd : List Char → Option Nat}
    {url token html : List Char} {resp : Response}
    (h1 : resp.refresh = none) (h2 : resp.body = some html)
    (h3 : serverErrorMarker.isPrefixOf html = true) :
    captureResponseStep pd url token resp = CaptureStep.recurse := by
  simp [captureResponseStep, h1, h2, h3]

/-- Every success the capture step settles with carries the requested url as
`target_url`. -/
theorem captureResponseStep_ok_target {pd : List Char → Option Nat}
    {url token : List Char} {resp : Response} {r : Archived}
    (h : captureResponseStep pd url token resp =
      CaptureStep.done (Except.ok r)) :
    r.target_url = url := by
  unfold captureResponseStep at h
  cases hr : resp.refresh.bind refreshExtract with
  | some au =>
    simp only [hr] at h
    injection h with h1
    injection h1 with h2
    subst h2
    rfl
  | none =>
    simp only [hr] at h
    cases hb : resp.body with
    | none =>
      simp only [hb] at h
      injection h with h1
      exact Except.noConfusion h1
    | some html =>
      simp only [hb] at h
      by_cases hs : serverErrorMarker.isPrefixOf html = true
      · rw [if_pos hs] at h
        exact CaptureStep.noConfusion h
      · rw [if_neg hs] at h
        cases hog : ogExtract html with
        | some au =>
          simp only [hog] at h
          injection h with h1
          injection h1 with h2
          subst h2
          rfl
        | none =>
          simp only [hog] at h
          injection h with h1
          exact Except.noConfusion h1

/-- Every success of the fuelled `capture_with_token` recursion carries the
requested url as `target_url`. -/
theorem capture_with_token_fuel_ok_target {pd : List Char → Option Nat}
    {tokens : Nat → Except Error (List Char)} {resps : Nat → Response} :
    ∀ {fuel k : Nat} {url token : List Char} {r : Archived},
      capture_with_token_fuel pd tokens resps fuel k url token =
        some (Except.ok r) →
      r.target_url = url := by
  intro fuel
  induction fuel with
  | zero =>
    intro k url token r h
    exact absurd h (by simp [capture_with_token_fuel])
  | succ n ih =>
    intro k url token r h
    simp only [capture_with_token_fuel] at h
    cases hs : captureResponseStep pd url token (resps k) with
    | done res =>
      simp only [hs] at h
      injection h with h1
      subst h1
      exact captureResponseStep_ok_target hs
    | recurse =>
      simp only [hs] at h
      cases ht : tokens (k + 1) with
      | error e =>
        simp only [ht] at h
        exact absurd h (by simp)
      | ok t =>
        simp only [ht] at h
        exact ih h

/-- With a zero budget `fold_captures` is the identity on the results. -/
theorem fold_captures_zero
    (cap : List Char → List Char → Except Error Archived)
    (archives : List (Except Error Archived)) (token : List Char) :
    fold_captures cap archives 0 token = archives := rfl

/-- With only successes `fold_captures` is the identity on the results. -/
theorem fold_captures_allOk
    {archives : List (Except Error Archived)}
    (h : archives.all isOk = true)
    (cap : List Char → List Char → Except Error Archived)
    (r : Nat) (token : List Char) :
    fold_captures cap archives r token = archives := by
  cases r with
  | zero => rfl
  | succ n =>
    simp only [fold_captures]
    rw [if_pos h]

/-- An empty result collection stays empty under `fold_captures`. -/
theorem fold_captures_nil
    (cap : List Char → List Char → Except Error Archived)
    (r : Nat) (token : List Char) :
    fold_captures cap [] r token = [] :=
  fold_captures_allOk (by simp) cap r token

/-- The traced loop computes the same results as `fold_captures`. -/
theorem fold_captures_traced_fst
    (cap : List Char → List Char → Except Error Archived) :
    ∀ (r : Nat) (archives : List (Except Error Archived)) (token : List Char),
      (fold_captures_traced cap archives r token).1 =
        fold_captures cap archives r token := by
  intro r
  induction r with
  | zero =>
    intro archives token
    rfl
  | succ n ih =>
    intro archives token
    simp only [fold_captures_traced, fold_captures]
    by_cases h : archives.all isOk
    · rw [if_pos h, if_pos h]
    · rw [if_neg h, if_neg h]
      exact ih _ _

/-- Every `capture_with_token` call the retry loop makes uses the very token
it was handed: the loop never fetches a fresh one. -/
theorem fold_captures_traced_token
    (cap : List Char → List Char → Except Error Archived) :
    ∀ (r : Nat) (archives : List (Except Error Archived)) (token : List Char)
      (p : List Char × List Char),
      p ∈ (fold_captures_traced cap archives r token).2 → p.2 = token := by
  intro r
  induction r with
  | zero =>
    intro archives token p hp
    simp [fold_captures_traced] at hp
  | succ n ih =>
    intro archives token p hp
    simp only [fold_captures_traced] at hp
    by_cases h : archives.all isOk
    · rw [if_pos h] at hp
      simp at hp
    · rw [if_neg h] at hp
      simp only [List.mem_append] at hp
      rcases hp with hp | hp
      · simp only [capture_links_calls, List.mem_map] at hp
        obtain ⟨u, _, hu⟩ := hp
        rw [← hu]
      · exact ih _ _ _ hp

/-! Section: claim theorems -/

/-- C1: the claim says a capture POST response with no `Refresh` header and a
body beginning with `<h1>Server Error</h1>` makes `capture_with_token` fail
with `ServerError(url)`.  The code (src/src/lib.rs:232-236) instead
re-invokes `self.capture` — it settles with no error at all (and lib.rs's
`Error` enum has no `ServerError` variant to fail with), so this theorem
records the divergence: the step is `recurse`, never a `done` error. -/
theorem C1_server_error_body_recurses
    (pd : List Char → Option Nat) (url token html : List Char)
    (resp : Response)
    (h1 : resp.refresh = none) (h2 : resp.body = some html)
    (h3 : serverErrorMarker.isPrefixOf html = true) :
    captureResponseStep pd url token resp = CaptureStep.recurse ∧
    ∀ e : Error, captureResponseStep pd url token resp ≠
      CaptureStep.done (Except.error e) := by
  have hstep : captureResponseStep pd url token resp = CaptureStep.recurse :=
    captureResponseStep_recurse h1 h2 h3
  refine ⟨hstep, fun e he => ?_⟩
  rw [hstep] at he
  exact CaptureStep.noConfusion he

/-- Witness for C1 at the concrete failing input: url
`http://example.com/`, token `tk`, response with no `Refresh` header and
body `<h1>Server Error</h1>`. -/
theorem C1_server_error_body_recurses_witness :
    captureResponseStep (fun _ => none) "http://example.com/".data "tk".data
      ⟨none, none, some "<h1>Server Error</h1>".data⟩ =
      CaptureStep.recurse :=
  (C1_server_error_body_recurses (fun _ => none) "http://example.com/".data
    "tk".data "<h1>Server Error</h1>".data
    ⟨none, none, some "<h1>Server Error</h1>".data⟩ rfl rfl (by decide)).1

/-- C2: the claim says `capture_with_token` performs no internal retries and
never re-invokes the capture entry point on itself.  In the code the
server-error branch does re-invoke `self.capture` (src/src/lib.rs:234), and
while the service keeps answering server-error bodies (and token GETs keep
succeeding) the recursion never settles: for every fuel bound the fuelled
recursion is still running. -/
theorem C2_server_error_retry_unbounded
    (pd : List Char → Option Nat)
    (tokens : Nat → Except Error (List Char)) (resps : Nat → Response)
    (hrefresh : ∀ k, (resps k).refresh = none)
    (hbody : ∀ k, ∃ html, (resps k).body = some html ∧
      serverErrorMarker.isPrefixOf html = true)
    (htokens : ∀ k, ∃ t, tokens k = Except.ok t) :
    ∀ (fuel k : Nat) (url token : List Char),
      capture_with_token_fuel pd tokens resps fuel k url token = none := by
  intro fuel
  induction fuel with
  | zero =>
    intro k url token
    rfl
  | succ n ih =>
    intro k url token
    obtain ⟨html, hb, hp⟩ := hbody k
    obtain ⟨t, ht⟩ := htokens (k + 1)
    have hstep : captureResponseStep pd url token (resps k) =
        CaptureStep.recurse := captureResponseStep_recurse (hrefresh k) hb hp
    simp only [capture_with_token_fuel, hstep, ht]
    exact ih (k + 1) url t

/-- Witness for C2: with every POST answered by a server-error body and
every token GET succeeding, five units of fuel are not enough to settle. -/
theorem C2_server_error_retry_unbounded_witness :
    capture_with_token_fuel (fun _ => none) (fun _ => Except.ok "tk".data)
      (fun _ => ⟨none, none, some "<h1>Server Error</h1>".data⟩) 5 0
      "http://example.com/".data "tk".data = none :=
  C2_server_error_retry_unbounded (fun _ => none)
    (fun _ => Except.ok "tk".data)
    (fun _ => ⟨none, none, some "<h1>Server Error</h1>".data⟩)
    (fun _ => rfl) (fun _ => ⟨"<h1>Server Error</h1>".data, rfl, by decide⟩)
    (fun _ => ⟨"tk".data, rfl⟩) 5 0 "http://example.com/".data "tk".data

/-- C5 counterexample: the body `value="oops"` does not contain the
submitid marker, yet token acquisition returns `oops` instead of failing
with `MissingToken`, refuting the claim's second half. -/
theorem C5_counterexample_value_without_marker :
    containsPat submitidMarker "value=\"oops\"".data = false ∧
    get_unique_token (some "value=\"oops\"".data) = Except.ok "oops".data :=
  ⟨by decide, rfl⟩

/-- C5 amended: for the landing-page body
`type="hidden" name="submitid" value="ABC123"/>` token acquisition returns
`ABC123`; and for every body in which both the submitid marker and the
substring `value="` are absent, it fails with `MissingToken` (absence of the
submitid marker alone does not suffice: the code then scans the whole body
for `value="`). -/
theorem C5_token_extraction_amended :
    get_unique_token
      (some "type=\"hidden\" name=\"submitid\" value=\"ABC123\"/>".data) =
      Except.ok "ABC123".data ∧
    ∀ html : List Char, containsPat submitidMarker html = false →
      containsPat valueMarker html = false →
      get_unique_token (some html) = Except.error Error.missingToken := by
  constructor
  · rfl
  · intro html h1 h2
    have e1 : afterLastOrAll submitidMarker html = html :=
      afterLastOrAll_eq_self h1
    have e2 : afterFirst valueMarker html = none := afterFirst_eq_none h2
    simp [get_unique_token, extractToken, e1, e2]

/-- Witness for C5 amended at the concrete body `hello world`, which
contains neither marker. -/
theorem C5_token_extraction_amended_witness :
    get_unique_token (some "hello world".data) =
      Except.error Error.missingToken :=
  C5_token_extraction_amended.2 "hello world".data (by decide) (by decide)

/-- C6 counterexample: for `Refresh: 0=http://archive.example/abc?x=1` the
code extracts `http://archive.example/abc?x` — the text between the first
and second `=` — not everything after the first `=`: `=` characters after
the first are NOT preserved. -/
theorem C6_counterexample_second_equals_truncates :
    captureResponseStep (fun _ => none) "u".data "tk".data
      ⟨some "0=http://archive.example/abc?x=1".data, none, none⟩ =
      CaptureStep.done (Except.ok
        { target_url := "u".data,
          archived_url := "http://archive.example/abc?x".data,
          time_stamp := none, submit_token := "tk".data }) ∧
    "http://archive.example/abc?x".data ≠
      "http://archive.example/abc?x=1".data :=
  ⟨rfl, by decide⟩

/-- C6 amended: the archive URL taken from a `Refresh` header value of shape
`a ++ "=" ++ b` (no `=` in `a`) is `b` truncated at the next `=`
(`split('=').nth(1)`): everything after the first `=` only when no further
`=` occurs.  In particular `Refresh: 0=http://archive.example/abc` yields
exactly `http://archive.example/abc`. -/
theorem C6_refresh_between_first_and_second_equals :
    (∀ (pd : List Char → Option Nat) (url token : List Char)
       (resp : Response) (a b : List Char),
       resp.refresh = some (a ++ '=' :: b) →
       a.all (fun x => x ≠ '=') = true →
       captureResponseStep pd url token resp =
         CaptureStep.done (Except.ok
           { target_url := url,
             archived_url := b.takeWhile (fun x => x ≠ '='),
             time_stamp := resp.date.bind pd,
             submit_token := token })) ∧
    refreshExtract "0=http://archive.example/abc".data =
      some "http://archive.example/abc".data := by
  constructor
  · intro pd url token resp a b h1 h2
    have hre : resp.refresh.bind refreshExtract =
        some (b.takeWhile (fun x => x ≠ '=')) := by
      rw [h1]
      simpa using refreshExtract_append h2 b
    unfold captureResponseStep
    rw [hre]
  · decide

/-- Witness for C6 amended at the concrete header value `0=abc`. -/
theorem C6_refresh_between_first_and_second_equals_witness :
    captureResponseStep (fun _ => none) "u".data "tk".data
      ⟨some ("0".data ++ '=' :: "abc".data), none, none⟩ =
      CaptureStep.done (Except.ok
        { target_url := "u".data, archived_url := "abc".data,
          time_stamp := none, submit_token := "tk".data }) :=
  C6_refresh_between_first_and_second_equals.1 (fun _ => none) "u".data
    "tk".data ⟨some ("0".data ++ '=' :: "abc".data), none, none⟩
    "0".data "abc".data rfl (by decide)

/-- Concrete capture oracle for the closed evaluations: every capture
attempt fails with a transport error. -/
def capAllHyper : List Char → List Char → Except Error Archived :=
  fun _ _ => Except.error Error.hyper

/-- C3 counterexample: one input entry carrying the non-retryable transport
error `Hyper` and a budget of one round — the entry is dropped by the
partition/filter of `fold_captures` and the final output is empty, so the
error neither passes through nor does the output keep one entry per input
URL. -/
theorem C3_counterexample_hyper_dropped :
    fold_captures capAllHyper [Except.error Error.hyper] 1 "t".data = [] :=
  rfl

/-- C3 amended: `fold_captures` passes the input through unchanged exactly
when the budget is zero or every entry is a success; as soon as a retry
round runs, non-retryable error entries are dropped (only
`ServerError`/`MissingUrl` urls are re-captured) — in particular an input
of nothing but non-retryable failures comes back empty, violating
one-entry-per-URL. -/
theorem C3_nonretryable_errors_dropped
    (cap : List Char → List Char → Except Error Archived)
    (archives : List (Except Error Archived)) (r : Nat) (token : List Char) :
    ((r = 0 ∨ archives.all isOk = true) →
      fold_captures cap archives r token = archives) ∧
    ((∀ x ∈ archives, isOk x = false ∧ retryTarget x = none) → r ≠ 0 →
      fold_captures cap archives r token = []) := by
  constructor
  · rintro (rfl | h)
    · rfl
    · exact fold_captures_allOk h cap r token
  · intro hx hr
    cases r with
    | zero => exact absurd rfl hr
    | succ n =>
      cases archives with
      | nil => exact fold_captures_nil cap (n + 1) token
      | cons a as =>
        have hfail : (a :: as).all isOk = false := by
          rw [List.all_cons, (hx a (by simp)).1]
          rfl
        have hok : (a :: as).filter isOk = [] :=
          List.filter_eq_nil_iff.mpr (fun x hmem => by
            rw [(hx x hmem).1]
            simp)
        have hurls :
            ((a :: as).filter (not ∘ isOk)).filterMap retryTarget = [] :=
          List.filterMap_eq_nil_iff.mpr (fun x hmem =>
            (hx x (List.mem_of_mem_filter hmem)).2)
        simp only [fold_captures, hfail, Bool.false_eq_true, if_false,
          List.partition_eq_filter_filter, hok, hurls, capture_links,
          List.map_nil, List.nil_append]
        exact fold_captures_nil cap n token

/-- Witness for C3 amended: a retry budget of two rounds over a single
transport failure yields the empty collection. -/
theorem C3_nonretryable_errors_dropped_witness :
    fold_captures capAllHyper [Except.error Error.hyper] 2 "w".data = [] :=
  (C3_nonretryable_errors_dropped capAllHyper [Except.error Error.hyper] 2
    "w".data).2 (by decide) (by decide)

/-- C4: whenever `capture_all` produces its result collection (token
acquisition succeeded — with a supplied token it always does), the
collection has exactly one entry per input URL, and the i-th entry is
decided by the i-th URL's own capture outcome alone, so no URL's failure
removes or aborts the entries of the others. -/
theorem C4_capture_all_cardinality
    (getToken : Except Error (List Char))
    (cap : List Char → List Char → Except Error Archived)
    (urls : List (List Char)) :
    (∀ t, capture_all getToken cap urls (some t) =
      Except.ok (urls.map (fun u => cap u t))) ∧
    (∀ (token : Option (List Char)) (rs : List (Except Error Archived)),
      capture_all getToken cap urls token = Except.ok rs →
      rs.length = urls.length ∧
      ∃ t, ∀ (i : Nat) (hi : i < rs.length) (hj : i < urls.length),
        rs.get ⟨i, hi⟩ = cap (urls.get ⟨i, hj⟩) t) := by
  constructor
  · intro t
    rfl
  · intro token rs h
    have key : ∀ t, rs = urls.map (fun u => cap u t) →
        rs.length = urls.length ∧
        ∃ t, ∀ (i : Nat) (hi : i < rs.length) (hj : i < urls.length),
          rs.get ⟨i, hi⟩ = cap (urls.get ⟨i, hj⟩) t := by
      intro t he
      subst he
      refine ⟨List.length_map urls _, t, fun i hi hj => ?_⟩
      simp [List.get_eq_getElem, List.getElem_map]
    cases token with
    | some t =>
      simp only [capture_all] at h
      injection h with h1
      exact key t h1.symm
    | none =>
      simp only [capture_all] at h
      cases hg : getToken with
      | error e =>
        rw [hg] at h
        exact Except.noConfusion h
      | ok t =>
        rw [hg] at h
        injection h with h1
        exact key t h1.symm

/-- Witness for C4 at two concrete URLs with a supplied token: the batch has
exactly two entries. -/
theorem C4_capture_all_cardinality_witness :
    capture_all (Except.ok "g".data) capAllHyper ["a".data, "b".data]
      (some "t".data) =
      Except.ok [Except.error Error.hyper, Except.error Error.hyper] ∧
    ([Except.error Error.hyper,
      Except.error Error.hyper] : List (Except Error Archived)).length =
      (["a".data, "b".data] : List (List Char)).length :=
  ⟨rfl,
    ((C4_capture_all_cardinality (Except.ok "g".data) capAllHyper
      ["a".data, "b".data]).2 (some "t".data)
      [Except.error Error.hyper, Except.error Error.hyper] rfl).1⟩

/-- C7: on a response with no `Refresh` header whose body does not start
with the server-error marker, the capture step succeeds with the og:url
meta-tag extraction's value as archive URL and no timestamp whenever that
extraction finds one; when it finds none, the step fails with
`MissingUrl(url)`.  The spec's concrete example body evaluates to
`http://archive.example/xyz`. -/
theorem C7_meta_fallback
    (pd : List Char → Option Nat) (url token : List Char) (resp : Response)
    (html : List Char)
    (h1 : resp.refresh = none) (h2 : resp.body = some html)
    (h3 : serverErrorMarker.isPrefixOf html = false) :
    (∀ u : List Char, ogExtract html = some u →
      captureResponseStep pd url token resp =
        CaptureStep.done (Except.ok
          { target_url := url, archived_url := u,
            time_stamp := none, submit_token := token })) ∧
    (ogExtract html = none →
      captureResponseStep pd url token resp =
        CaptureStep.done (Except.error (Error.missingUrl url))) ∧
    ogExtract
      ("<meta property=\"og:url\" content=\"http://archive.example/xyz\">".data) =
      some "http://archive.example/xyz".data := by
  refine ⟨fun u hog => ?_, fun hog => ?_, by decide⟩
  · simp [captureResponseStep, h1, h2, h3, hog]
  · simp [captureResponseStep, h1, h2, h3, hog]

/-- Witness for C7 at the spec's concrete body with no `Refresh` header. -/
theorem C7_meta_fallback_witness :
    captureResponseStep (fun _ => none) "u".data "tk".data
      ⟨none, none,
        some "<meta property=\"og:url\" content=\"http://archive.example/xyz\">".data⟩ =
      CaptureStep.done (Except.ok
        { target_url := "u".data,
          archived_url := "http://archive.example/xyz".data,
          time_stamp := none, submit_token := "tk".data }) :=
  (C7_meta_fallback (fun _ => none) "u".data "tk".data
    ⟨none, none,
      some "<meta property=\"og:url\" content=\"http://archive.example/xyz\">".data⟩
    "<meta property=\"og:url\" content=\"http://archive.example/xyz\">".data
    rfl rfl (by decide)).1 "http://archive.example/xyz".data (by decide)

/-- C8: with a zero retry budget `fold_captures` returns the original
entries unchanged and makes no capture call; likewise whenever the input
contains no failures, for any budget. -/
theorem C8_retry_zero_passthrough
    (cap : List Char → List Char → Except Error Archived)
    (archives : List (Except Error Archived)) (token : List Char) :
    fold_captures cap archives 0 token = archives ∧
    (fold_captures_traced cap archives 0 token).2 = [] ∧
    (archives.all isOk = true → ∀ r : Nat,
      fold_captures cap archives r token = archives ∧
      (fold_captures_traced cap archives r token).2 = []) := by
  refine ⟨rfl, rfl, fun h r => ⟨fold_captures_allOk h cap r token, ?_⟩⟩
  cases r with
  | zero => rfl
  | succ n =>
    simp only [fold_captures_traced]
    rw [if_pos h]

/-- Witness for C8 on an all-success input with budget three: output equals
input and the call trace is empty. -/
theorem C8_retry_zero_passthrough_witness :
    fold_captures capAllHyper
      [Except.ok ⟨"u".data, "a".data, none, "t".data⟩] 3 "t".data =
      [Except.ok ⟨"u".data, "a".data, none, "t".data⟩] ∧
    (fold_captures_traced capAllHyper
      [Except.ok ⟨"u".data, "a".data, none, "t".data⟩] 3 "t".data).2 = [] :=
  (C8_retry_zero_passthrough capAllHyper
    [Except.ok ⟨"u".data, "a".data, none, "t".data⟩] "t".data).2.2
    (by decide) 3

/-- C9 counterexample: one retry round over a failed `ServerError("u")`
entry issues exactly one capture call, and that call reuses the original
batch token `tok0` — no fresh token is fetched for the retry attempt
(`fold_captures` has no token-acquisition step at all and calls
`capture_with_token`, not `capture`). -/
theorem C9_counterexample_token_reused :
    (fold_captures_traced capAllHyper
      [Except.error (Error.serverError "u".data)] 1 "tok0".data).2 =
      [("u".data, "tok0".data)] :=
  rfl

/-- C9 amended: on every retry round each pending failed URL is re-attempted
via `capture_with_token` with the token the loop was handed — the token of
the original batch — never with a freshly fetched one: every call in the
loop's trace carries exactly that token. -/
theorem C9_retry_reuses_batch_token
    (cap : List Char → List Char → Except Error Archived)
    (archives : List (Except Error Archived)) (r : Nat) (token : List Char)
    (p : List Char × List Char)
    (hp : p ∈ (fold_captures_traced cap archives r token).2) :
    p.2 = token :=
  fold_captures_traced_token cap r archives token p hp

/-- Witness for C9 amended: the one call of a concrete retry round indeed
carries the batch token. -/
theorem C9_retry_reuses_batch_token_witness :
    ("u".data, "tok0".data) ∈
      (fold_captures_traced capAllHyper
        [Except.error (Error.missingUrl "u".data)] 1 "tok0".data).2 ∧
    ("u".data, "tok0".data).2 = "tok0".data :=
  ⟨by decide,
    C9_retry_reuses_batch_token capAllHyper
      [Except.error (Error.missingUrl "u".data)] 1 "tok0".data
      ("u".data, "tok0".data) (by decide)⟩

/-- C10: every successful result of the capture logic carries the requested
url as its `target_url`: at the level of a single response interpretation
(both the `Refresh` path and the meta-tag fallback construct
`target_url := url`), through the full `capture_with_token` recursion, and
through the `capture` entry point. -/
theorem C10_target_url_equals_requested
    (pd : List Char → Option Nat)
    (tokens : Nat → Except Error (List Char)) (resps : Nat → Response) :
    (∀ (url token : List Char) (resp : Response) (r : Archived),
      captureResponseStep pd url token resp =
        CaptureStep.done (Except.ok r) →
      r.target_url = url) ∧
    (∀ (fuel k : Nat) (url token : List Char) (r : Archived),
      capture_with_token_fuel pd tokens resps fuel k url token =
        some (Except.ok r) →
      r.target_url = url) ∧
    (∀ (fuel : Nat) (url : List Char) (r : Archived),
      capture_fuel pd tokens resps fuel url = some (Except.ok r) →
      r.target_url = url) := by
  refine ⟨fun url token resp r h => captureResponseStep_ok_target h,
    fun fuel k url token r h => capture_with_token_fuel_ok_target h,
    fun fuel url r h => ?_⟩
  unfold capture_fuel at h
  cases ht : tokens 0 with
  | error e =>
    rw [ht] at h
    injection h with h1
    exact Except.noConfusion h1
  | ok t =>
    rw [ht] at h
    exact capture_with_token_fuel_ok_target h

/-- Witness for C10 on a concrete successful `Refresh`-path response. -/
theorem C10_target_url_equals_requested_witness :
    captureResponseStep (fun _ => none) "u".data "tk".data
      ⟨some "0=a".data, none, none⟩ =
      CaptureStep.done (Except.ok
        { target_url := "u".data, archived_url := "a".data,
          time_stamp := none, submit_token := "tk".data }) ∧
    ({ target_url := "u".data, archived_url := "a".data,
       time_stamp := none, submit_token := "tk".data } :
      Archived).target_url = "u".data :=
  ⟨rfl,
    (C10_target_url_equals_requested (fun _ => none)
      (fun _ => Except.ok "tk".data) (fun _ => ⟨none, none, none⟩)).1
      "u".data "tk".data ⟨some "0=a".data, none, none⟩
      ⟨"u".data, "a".data, none, "tk".data⟩ rfl⟩

end Archiveis
